import Mathlib

/-!
Verification of the s2n-quic transmission payload assembler
(`s2n-quic-transport/src/transmission/application.rs`) and of the
stream-concurrency controller (`s2n-quic-transport/src/stream/controller.rs`).

The transmission payload code is embedded directly from the source.  The frame
producers it drives (ack manager, stream manager, datagram manager, mtu
controller, path, ...) live outside the analysed sources; the embedding records
the order in which `Normal::on_transmit` invokes them as a trace of
`Producer` events, and treats the values the environment feeds back
(`did_send_ack`, each producer's transmission interest) as parameters.

The stream controller source is a scaffold with empty method bodies, so its
operations are modelled from the specification (each such definition is marked
`Modelled from the spec:`).
-/

namespace S2NQuic

/-- The transmission constraint exposed by a `WriteContext`
(`transmission_constraint()`), reduced to the two predicates the analysed code
consults: `can_transmit` (new data allowed) and `can_retransmit`
(retransmission allowed; congestion limited forbids both). -/
structure Constraint where
  canTransmit : Bool
  canRetransmit : Bool
deriving DecidableEq, Repr

/-- The individual frame producers that a `Normal` payload can invoke during
`on_transmit`, used as trace events.  `datagramManager` records the
`prioritize_datagrams` flag it is invoked with. -/
inductive Producer where
  | datagramManager (prioritize : Bool)
  | ackManagerOnTransmit
  | handshakeStatus
  | dcManager
  | cryptoStreamTx
  | activePath
  | localIdRegistry
  | pathManager
  | streamManager
  | recoveryManager
  | ping
  | ackManagerOnTransmitComplete
deriving DecidableEq, Repr

/-- The mutable state a `Normal` payload owns itself (everything else is a
borrow of connection components): the `prioritize_datagrams` flag. -/
structure NormalState where
  prioritizeDatagrams : Bool
deriving DecidableEq, Repr

/-- The local `can_transmit` computed at the top of `Normal::on_transmit`:
`context.transmission_constraint().can_transmit() ||
 context.transmission_constraint().can_retransmit()`. -/
def canTransmitOrRetransmit (c : Constraint) : Bool :=
  c.canTransmit || c.canRetransmit

/-- The producer invocations of `Normal::transmit_control_data`, in source
order: handshake status (HANDSHAKE_DONE), dc manager (DC stateless reset),
crypto stream tx, active path, local connection-id registry, path manager. -/
def transmitControlData : List Producer :=
  [Producer.handshakeStatus, Producer.dcManager, Producer.cryptoStreamTx,
   Producer.activePath, Producer.localIdRegistry, Producer.pathManager]

/-- Embedding of `Normal::on_transmit`.  `didSendAck` is the boolean the ack
manager's `on_transmit` returns to the payload (the ack manager itself is an
external collaborator).  The result is the updated payload state together with
the trace of producer invocations, in invocation order. -/
def Normal.onTransmit (st : NormalState) (c : Constraint) (didSendAck : Bool) :
    NormalState × List Producer :=
  let ct := canTransmitOrRetransmit c
  let evs :=
    (if st.prioritizeDatagrams && ct then [Producer.datagramManager st.prioritizeDatagrams]
     else [])
    ++ [Producer.ackManagerOnTransmit]
    ++ (if ct then
          transmitControlData
          ++ (if !st.prioritizeDatagrams then [Producer.datagramManager st.prioritizeDatagrams]
              else [])
          ++ [Producer.streamManager, Producer.recoveryManager, Producer.ping]
        else [])
    ++ (if didSendAck then [Producer.ackManagerOnTransmitComplete] else [])
  (⟨!st.prioritizeDatagrams⟩, evs)

/-- `n` consecutive `Normal::on_transmit` calls from state `st`, all under the
same constraint and ack-manager reply; returns the per-packet traces. -/
def runNormal (c : Constraint) (didSendAck : Bool) : Nat → NormalState → List (List Producer)
  | 0, _ => []
  | n + 1, st =>
    (Normal.onTransmit st c didSendAck).2 ::
      runNormal c didSendAck n (Normal.onTransmit st c didSendAck).1

/-- The payload state after `n` consecutive `Normal::on_transmit` calls. -/
def iterNormal (c : Constraint) (didSendAck : Bool) : Nat → NormalState → NormalState
  | 0, st => st
  | n + 1, st => iterNormal c didSendAck n (Normal.onTransmit st c didSendAck).1

/-- The number of packets, among `n` consecutive transmissions, in which the
datagram manager was invoked with the priority flag set (i.e. datagrams were
prioritized). -/
def prioritizedCount (c : Constraint) (didSendAck : Bool) (n : Nat) (st : NormalState) : Nat :=
  (runNormal c didSendAck n st).countP
    (fun t => decide (Producer.datagramManager true ∈ t))

/-- The `transmission::Mode` supplied by the connection event loop. -/
inductive Mode where
  | Normal
  | MtuProbing
  | PathValidationOnly
  | LossRecoveryProbing
deriving DecidableEq, Repr

/-- The slice of the path manager that `Payload::new` consults: the id of the
active path.  Paths themselves are identified by their `path::Id` (a `Nat`);
`path_manager[path_id]` yields the path — and its `mtu_controller` — for that
id, so the embedding records which path id a non-Normal payload holds. -/
structure PathManagerState where
  activePathId : Nat
deriving DecidableEq, Repr

/-- The variant of payload `Payload::new` constructs, with the data relevant to
the claims: the `prioritize_datagrams` initial value of a `Normal` payload, and
the id of the path whose `mtu_controller` (resp. path itself) an `MtuProbe`
(resp. `PathValidationOnly`) payload borrows. -/
inductive PayloadDesc where
  | normal (prioritizeDatagrams : Bool)
  | mtuProbe (pathIdOfMtuController : Nat)
  | pathValidationOnly (pathId : Nat)
deriving DecidableEq, Repr

/-- Embedding of `Payload::new`.  The `debug_assert_eq!(path_id,
path_manager.active_path_id())` executed when the mode is not
`PathValidationOnly` is modelled as returning `none` when the assertion
fails. -/
def Payload.new (pathId : Nat) (pm : PathManagerState) (mode : Mode) :
    Option PayloadDesc :=
  if mode ≠ Mode.PathValidationOnly ∧ pathId ≠ pm.activePathId then
    none
  else
    match mode with
    | Mode.LossRecoveryProbing => some (PayloadDesc.normal false)
    | Mode.Normal => some (PayloadDesc.normal false)
    | Mode.MtuProbing => some (PayloadDesc.mtuProbe pathId)
    | Mode.PathValidationOnly => some (PayloadDesc.pathValidationOnly pathId)

/-- Embedding of `Payload::size_hint`: `(*range.start()).max(1)`.  The
inclusive range is a pair (start, end). -/
def Payload.sizeHint (range : Nat × Nat) : Nat :=
  max range.1 1

/-- Transmission interest lattice: None < NewData < LostData < Forced. -/
inductive Interest where
  | none
  | newData
  | lostData
  | forced
deriving DecidableEq, Repr, Fintype

/-- Numeric rank of an interest level (for ordering). -/
def Interest.rank : Interest → Nat
  | Interest.none => 0
  | Interest.newData => 1
  | Interest.lostData => 2
  | Interest.forced => 3

/-- Supremum of two interest levels. -/
def Interest.sup (a b : Interest) : Interest :=
  if a.rank ≤ b.rank then b else a

/-- Supremum of a list of interest levels. -/
def supList (l : List Interest) : Interest :=
  l.foldr Interest.sup Interest.none

/-- The transmission interests reported by each producer a `Normal` payload
aggregates.  The producers are external collaborators; their interests enter
the embedding as values. -/
structure NormalInterests where
  ackManager : Interest
  handshakeStatus : Interest
  streamManager : Interest
  datagramManager : Interest
  localIdRegistry : Interest
  pathManager : Interest
  cryptoStream : Interest
  recoveryManager : Interest
  activePath : Interest
  ping : Interest
  dcManager : Interest
deriving DecidableEq, Repr

/-- The producers of a `Normal` payload, in the order
`Normal::transmission_interest` queries them. -/
def NormalInterests.producers (p : NormalInterests) : List Interest :=
  [p.ackManager, p.handshakeStatus, p.streamManager, p.datagramManager,
   p.localIdRegistry, p.pathManager, p.cryptoStream, p.recoveryManager,
   p.activePath, p.ping, p.dcManager]

/-- Embedding of `Normal::transmission_interest`: the query accumulates each
producer's interest in source order, starting from the interest `q` already
accumulated by the caller; per the interest contract the accumulation is the
supremum. -/
def Normal.transmissionInterest (p : NormalInterests) (q : Interest) : Interest :=
  ((((((((((q.sup p.ackManager).sup p.handshakeStatus).sup
      p.streamManager).sup p.datagramManager).sup p.localIdRegistry).sup
      p.pathManager).sup p.cryptoStream).sup p.recoveryManager).sup
      p.activePath).sup p.ping).sup p.dcManager

/-- Frames relevant to the non-Normal payload variants. -/
inductive Frame where
  | mtuProbe (size : Nat)
  | pathChallenge (data : Nat)
  | pathResponse (data : Nat)
deriving DecidableEq, Repr

/-- Modelled from the spec: `path::mtu::Controller` is not under the analysed
sources.  Per the spec it "writes a packet padded to a probe size chosen by
its own binary-search state": the model keeps whether a probe is currently
requested and the probe size the search state selected. -/
structure MtuController where
  probeRequested : Bool
  probeSize : Nat
deriving DecidableEq, Repr

/-- Modelled from the spec: the MTU controller's `on_transmit` writes the
requested probe (a packet padded to `probeSize`) when one is requested. -/
def MtuController.onTransmit (ctrl : MtuController) : List Frame :=
  if ctrl.probeRequested then [Frame.mtuProbe ctrl.probeSize] else []

/-- Modelled from the spec: the MTU controller declares transmission interest
(at the NewData level) exactly while it has a probe requested. -/
def MtuController.transmissionInterest (ctrl : MtuController) : Interest :=
  if ctrl.probeRequested then Interest.newData else Interest.none

/-- Embedding of `MtuProbe::on_transmit`: the controller is invoked only if
`context.transmission_constraint().can_transmit()`. -/
def MtuProbe.onTransmit (ctrl : MtuController) (c : Constraint) : List Frame :=
  if c.canTransmit then ctrl.onTransmit else []

/-- Embedding of `MtuProbe`'s `transmission_interest`: it delegates to the MTU
controller (and does not consult the transmission constraint). -/
def MtuProbe.transmissionInterest (ctrl : MtuController) : Interest :=
  ctrl.transmissionInterest

/-- Modelled from the spec: `path::Path` is not under the analysed sources.
On a non-active path only path-validation frames are written; the model keeps
the pending PATH_CHALLENGE/PATH_RESPONSE with their 8-byte opaque data. -/
structure PathState where
  challengePending : Bool
  challengeData : Nat
  responsePending : Bool
  responseData : Nat
deriving DecidableEq, Repr

/-- Modelled from the spec: the path's `on_transmit` writes its pending
PATH_CHALLENGE and PATH_RESPONSE frames. -/
def PathState.onTransmit (p : PathState) : List Frame :=
  (if p.challengePending then [Frame.pathChallenge p.challengeData] else [])
    ++ (if p.responsePending then [Frame.pathResponse p.responseData] else [])

/-- Embedding of `PathValidationOnly::on_transmit`: the path is invoked only
if `context.transmission_constraint().can_transmit()`. -/
def PathValidationOnly.onTransmit (p : PathState) (c : Constraint) : List Frame :=
  if c.canTransmit then p.onTransmit else []

/-- Result of `poll_open_stream`: Ready with a stream id, or Pending. -/
inductive Poll where
  | ready (id : Nat)
  | pending
deriving DecidableEq, Repr

/-- Modelled from the spec: `LocalInitiatedStreamController` in the source is
a scaffold (its method bodies are empty), so its state is taken from the
declared fields and the spec's data model.  Counters are VarInts, modelled as
`Nat` (their 2^62 − 1 saturation bound is never approached in the claims
considered, as the guards keep every counter below the limits).  Wakers are
abstract tokens; `streamsBlockedRequested` is the blocked-at value recorded in
`streams_blocked_sync` when an open attempt is refused. -/
structure LocalController where
  maxLocalLimit : Nat
  peerStreamLimit : Nat
  openedStreams : Nat
  closedStreams : Nat
  wakers : List Nat
  streamsBlockedRequested : Option Nat
  quadrantTag : Nat
deriving DecidableEq, Repr

/-- The next stream id of the controller's quadrant: the nth stream of a
quadrant has id `(n <<< 2) ||| quadrant_tag`, and `opened_streams` streams
have been opened so far. -/
def LocalController.nextStreamId (ctrl : LocalController) : Nat :=
  (ctrl.openedStreams <<< 2) ||| ctrl.quadrantTag

/-- Modelled from the spec: `poll_open_stream`.  Returns Ready with the next
id of the quadrant when `opened_streams < min(max_local_limit,
peer_stream_limit)` (and counts the stream as opened); otherwise registers the
waker, records the blocked-at value `peer_stream_limit` in the
streams-blocked synchronizer, and returns Pending. -/
def LocalController.pollOpenStream (ctrl : LocalController) (waker : Nat) :
    LocalController × Poll :=
  if ctrl.openedStreams < min ctrl.maxLocalLimit ctrl.peerStreamLimit then
    ({ ctrl with openedStreams := ctrl.openedStreams + 1 },
     Poll.ready ctrl.nextStreamId)
  else
    ({ ctrl with
        wakers := ctrl.wakers ++ [waker],
        streamsBlockedRequested := some ctrl.peerStreamLimit },
     Poll.pending)

/-- Modelled from the spec: `on_close_stream` for a local type increments
`closed_streams` and wakes any blocked wakers. -/
def LocalController.onCloseStream (ctrl : LocalController) : LocalController :=
  { ctrl with closedStreams := ctrl.closedStreams + 1, wakers := [] }

/-- Modelled from the spec: `on_max_streams_frame` updates
`peer_stream_limit` (and wakes all wakers) only when the new limit exceeds the
current one. -/
def LocalController.onMaxStreamsFrame (ctrl : LocalController) (newLimit : Nat) :
    LocalController :=
  if ctrl.peerStreamLimit < newLimit then
    { ctrl with peerStreamLimit := newLimit, wakers := [] }
  else ctrl

/-- Events driving a local-initiated controller. -/
inductive LocalEvent where
  | pollOpen (waker : Nat)
  | closeStream
  | maxStreams (newLimit : Nat)
deriving DecidableEq, Repr

/-- One event step of the local-initiated controller. -/
def LocalController.step (ctrl : LocalController) : LocalEvent → LocalController
  | LocalEvent.pollOpen w => (ctrl.pollOpenStream w).1
  | LocalEvent.closeStream => ctrl.onCloseStream
  | LocalEvent.maxStreams v => ctrl.onMaxStreamsFrame v

/-- Whether an event is well-formed in a state: the stream manager closes a
stream only when one is open (each close matches an earlier successful open);
open attempts and MAX_STREAMS frames are always well-formed. -/
def LocalController.validEvent (ctrl : LocalController) : LocalEvent → Bool
  | LocalEvent.closeStream => ctrl.closedStreams < ctrl.openedStreams
  | _ => true

/-- The local controller after a sequence of events. -/
def LocalController.run (ctrl : LocalController) : List LocalEvent → LocalController
  | [] => ctrl
  | e :: es => (ctrl.step e).run es

/-- Whether every event of the sequence is well-formed in the state in which
it is processed. -/
def LocalController.validTrace (ctrl : LocalController) : List LocalEvent → Bool
  | [] => true
  | e :: es => ctrl.validEvent e && (ctrl.step e).validTrace es

/-- Modelled from the spec: `RemoteInitiatedStreamController` in the source is
a scaffold; the state is taken from the declared fields, the spec's data model
and its remark that `on_open_stream` "increments an internal accepted
counter".  `maxStreamsTarget` is the `max_streams_sync` target value
`max_local_limit + closed_streams`. -/
structure RemoteController where
  maxLocalLimit : Nat
  openedStreams : Nat
  closedStreams : Nat
  maxStreamsTarget : Nat
deriving DecidableEq, Repr

/-- Events driving a remote-initiated controller. -/
inductive RemoteEvent where
  | openStream
  | closeStream
deriving DecidableEq, Repr

/-- One event step of the remote-initiated controller: `on_open_stream`
increments the accepted counter; `on_close_stream` increments
`closed_streams` and recomputes the `max_streams_sync` target to
`max_local_limit + closed_streams`. -/
def RemoteController.step (ctrl : RemoteController) : RemoteEvent → RemoteController
  | RemoteEvent.openStream => { ctrl with openedStreams := ctrl.openedStreams + 1 }
  | RemoteEvent.closeStream =>
    { ctrl with
        closedStreams := ctrl.closedStreams + 1,
        maxStreamsTarget := ctrl.maxLocalLimit + (ctrl.closedStreams + 1) }

/-- Whether an event is well-formed in a state: an open beyond the advertised
limit `max_local_limit + closed_streams` is a protocol violation that kills
the connection, and the peer closes only streams it opened. -/
def RemoteController.validEvent (ctrl : RemoteController) : RemoteEvent → Bool
  | RemoteEvent.openStream => ctrl.openedStreams < ctrl.maxLocalLimit + ctrl.closedStreams
  | RemoteEvent.closeStream => ctrl.closedStreams < ctrl.openedStreams

/-- The remote controller after a sequence of events. -/
def RemoteController.run (ctrl : RemoteController) : List RemoteEvent → RemoteController
  | [] => ctrl
  | e :: es => (ctrl.step e).run es

/-- Whether every event of the sequence is well-formed in the state in which
it is processed. -/
def RemoteController.validTrace (ctrl : RemoteController) : List RemoteEvent → Bool
  | [] => true
  | e :: es => ctrl.validEvent e && (ctrl.step e).validTrace es

theorem Interest.none_sup (a : Interest) : Interest.none.sup a = a := by
  cases a <;> decide

theorem Interest.sup_none (a : Interest) : a.sup Interest.none = a := by
  cases a <;> decide

theorem Interest.sup_assoc (a b c : Interest) : (a.sup b).sup c = a.sup (b.sup c) := by
  revert a b c; decide

theorem Interest.rank_le_sup_left (a b : Interest) : a.rank ≤ (a.sup b).rank := by
  revert a b; decide

theorem Interest.rank_le_sup_right (a b : Interest) : b.rank ≤ (a.sup b).rank := by
  revert a b; decide

theorem Interest.sup_eq_left_or_right (a b : Interest) : a.sup b = a ∨ a.sup b = b := by
  revert a b; decide

theorem rank_le_supList (l : List Interest) : ∀ i ∈ l, i.rank ≤ (supList l).rank := by
  induction l with
  | nil => intro i hi; cases hi
  | cons x t ih =>
    intro i hi
    rcases List.mem_cons.mp hi with h | h
    · rw [h]
      exact Interest.rank_le_sup_left x (supList t)
    · exact le_trans (ih i h) (Interest.rank_le_sup_right x (supList t))

theorem supList_mem_or_none (l : List Interest) :
    supList l ∈ l ∨ supList l = Interest.none := by
  induction l with
  | nil => exact Or.inr rfl
  | cons x t ih =>
    have hx : supList (x :: t) = x.sup (supList t) := rfl
    rcases Interest.sup_eq_left_or_right x (supList t) with h | h
    · exact Or.inl (by rw [hx, h]; exact List.mem_cons_self x t)
    · rcases ih with ht | ht
      · exact Or.inl (by rw [hx, h]; exact List.mem_cons_of_mem x ht)
      · exact Or.inr (by rw [hx, h]; exact ht)

/-- Claim C4: a Normal payload's transmission interest, queried from an empty
accumulator, is the supremum (in the lattice None < NewData < LostData <
Forced) of the interests of exactly the eleven producers it aggregates (ack
manager, handshake status, stream manager, datagram manager, local
connection-id registry, path manager, crypto stream, recovery manager, active
path, ping, dc manager): it equals the fold of the lattice join over that
producer list, it bounds every producer's interest from above, and it is
attained by one of the producers (or is None). -/
theorem c4_normal_interest_is_sup (p : NormalInterests) :
    Normal.transmissionInterest p Interest.none = supList p.producers
    ∧ (p.ackManager.rank ≤ (Normal.transmissionInterest p Interest.none).rank
      ∧ p.handshakeStatus.rank ≤ (Normal.transmissionInterest p Interest.none).rank
      ∧ p.streamManager.rank ≤ (Normal.transmissionInterest p Interest.none).rank
      ∧ p.datagramManager.rank ≤ (Normal.transmissionInterest p Interest.none).rank
      ∧ p.localIdRegistry.rank ≤ (Normal.transmissionInterest p Interest.none).rank
      ∧ p.pathManager.rank ≤ (Normal.transmissionInterest p Interest.none).rank
      ∧ p.cryptoStream.rank ≤ (Normal.transmissionInterest p Interest.none).rank
      ∧ p.recoveryManager.rank ≤ (Normal.transmissionInterest p Interest.none).rank
      ∧ p.activePath.rank ≤ (Normal.transmissionInterest p Interest.none).rank
      ∧ p.ping.rank ≤ (Normal.transmissionInterest p Interest.none).rank
      ∧ p.dcManager.rank ≤ (Normal.transmissionInterest p Interest.none).rank)
    ∧ (Normal.transmissionInterest p Interest.none ∈ p.producers
        ∨ Normal.transmissionInterest p Interest.none = Interest.none) := by
  have hmain : Normal.transmissionInterest p Interest.none = supList p.producers := by
    simp [Normal.transmissionInterest, supList, NormalInterests.producers,
      Interest.sup_assoc, Interest.none_sup, Interest.sup_none]
  refine ⟨hmain, ⟨?_, ?_, ?_, ?_, ?_, ?_, ?_, ?_, ?_, ?_, ?_⟩, ?_⟩
  all_goals rw [hmain]
  any_goals
    apply rank_le_supList
    simp [NormalInterests.producers]
  exact supList_mem_or_none p.producers

/-- Claim C6: for every payload variant (size_hint is shared by all variants)
and every input range, `Payload::size_hint` returns at least 1 byte, so the
assembler always has room for a minimum ack-eliciting frame (HANDSHAKE_DONE
or PING). -/
theorem c6_size_hint_at_least_one (range : Nat × Nat) :
    1 ≤ Payload.sizeHint range := by
  simp [Payload.sizeHint]

/-- Claim C1: whenever the transmission constraint allows sending
(`can_transmit || can_retransmit`), `Normal::on_transmit` invokes the
producers in exactly this order — optionally the datagram manager (when
`prioritize_datagrams` is set), then the ack manager, then the control-data
block in the order HANDSHAKE_DONE status, DC stateless-reset manager, crypto
stream TX, active path, local connection-id registry, path manager, then the
datagram manager (when `prioritize_datagrams` is not set), then the stream
manager, then the recovery manager, then the ping flag — and the ack
manager's `on_transmit_complete` is called iff its `on_transmit` reported
that an ACK was sent. -/
theorem c1_normal_on_transmit_order (st : NormalState) (c : Constraint)
    (didSendAck : Bool) (h : canTransmitOrRetransmit c = true) :
    (Normal.onTransmit st c didSendAck).2 =
      (if st.prioritizeDatagrams then [Producer.datagramManager true] else [])
      ++ [Producer.ackManagerOnTransmit]
      ++ [Producer.handshakeStatus, Producer.dcManager, Producer.cryptoStreamTx,
          Producer.activePath, Producer.localIdRegistry, Producer.pathManager]
      ++ (if st.prioritizeDatagrams then [] else [Producer.datagramManager false])
      ++ [Producer.streamManager, Producer.recoveryManager, Producer.ping]
      ++ (if didSendAck then [Producer.ackManagerOnTransmitComplete] else [])
    ∧ (Producer.ackManagerOnTransmitComplete ∈ (Normal.onTransmit st c didSendAck).2
        ↔ didSendAck = true) := by
  obtain ⟨pd⟩ := st
  cases pd <;> cases didSendAck <;>
    simp [Normal.onTransmit, transmitControlData, h]

theorem c1_normal_on_transmit_order_witness :
    canTransmitOrRetransmit ⟨true, false⟩ = true
    ∧ ((Normal.onTransmit ⟨false⟩ ⟨true, false⟩ true).2 =
        (if (false : Bool) then [Producer.datagramManager true] else [])
        ++ [Producer.ackManagerOnTransmit]
        ++ [Producer.handshakeStatus, Producer.dcManager, Producer.cryptoStreamTx,
            Producer.activePath, Producer.localIdRegistry, Producer.pathManager]
        ++ (if (false : Bool) then [] else [Producer.datagramManager false])
        ++ [Producer.streamManager, Producer.recoveryManager, Producer.ping]
        ++ (if (true : Bool) then [Producer.ackManagerOnTransmitComplete] else [])
      ∧ (Producer.ackManagerOnTransmitComplete ∈ (Normal.onTransmit ⟨false⟩ ⟨true, false⟩ true).2
          ↔ (true : Bool) = true)) :=
  ⟨by decide, c1_normal_on_transmit_order ⟨false⟩ ⟨true, false⟩ true (by decide)⟩

/-- Claim C9: `Normal::on_transmit` always leaves `prioritize_datagrams`
negated relative to entry, even when the constraint forbids both transmitting
and retransmitting (in which case the trace is the mandatory ack-manager
bookkeeping only), and every Normal payload constructed by `Payload::new`
(mode Normal or LossRecoveryProbing) starts with `prioritize_datagrams =
false`. -/
theorem c9_prioritize_toggle (st : NormalState) (c c2 : Constraint) (d : Bool)
    (pm : PathManagerState) (h : canTransmitOrRetransmit c = false) :
    (Normal.onTransmit st c2 d).1.prioritizeDatagrams = !st.prioritizeDatagrams
    ∧ (Normal.onTransmit st c d).2 =
        [Producer.ackManagerOnTransmit]
        ++ (if d then [Producer.ackManagerOnTransmitComplete] else [])
    ∧ Payload.new pm.activePathId pm Mode.Normal = some (PayloadDesc.normal false)
    ∧ Payload.new pm.activePathId pm Mode.LossRecoveryProbing
        = some (PayloadDesc.normal false) := by
  refine ⟨rfl, ?_, ?_, ?_⟩
  · obtain ⟨pd⟩ := st
    cases pd <;> cases d <;> simp [Normal.onTransmit, h]
  · simp [Payload.new]
  · simp [Payload.new]

theorem c9_prioritize_toggle_witness :
    (Normal.onTransmit ⟨true⟩ ⟨true, true⟩ false).1.prioritizeDatagrams = !(true : Bool)
    ∧ (Normal.onTransmit ⟨true⟩ ⟨false, false⟩ false).2 =
        [Producer.ackManagerOnTransmit]
        ++ (if (false : Bool) then [Producer.ackManagerOnTransmitComplete] else [])
    ∧ Payload.new (PathManagerState.mk 7).activePathId (PathManagerState.mk 7)
        Mode.Normal = some (PayloadDesc.normal false)
    ∧ Payload.new (PathManagerState.mk 7).activePathId (PathManagerState.mk 7)
        Mode.LossRecoveryProbing = some (PayloadDesc.normal false) :=
  c9_prioritize_toggle ⟨true⟩ ⟨false, false⟩ ⟨true, true⟩ false (PathManagerState.mk 7)
    (by decide)

/-- Claim C10: `Normal::on_transmit` gates its producers on `can_transmit ||
can_retransmit`, while `MtuProbe::on_transmit` and
`PathValidationOnly::on_transmit` gate on `can_transmit` alone: under a
retransmit-only constraint the Normal payload still invokes its control-data,
datagram, stream, recovery and ping producers, while MtuProbe and
PathValidationOnly payloads write nothing. -/
theorem c10_gating_difference (st : NormalState) (d : Bool) (ctrl : MtuController)
    (p : PathState) (c : Constraint)
    (hct : c.canTransmit = false) (hcr : c.canRetransmit = true) :
    Producer.streamManager ∈ (Normal.onTransmit st c d).2
    ∧ Producer.handshakeStatus ∈ (Normal.onTransmit st c d).2
    ∧ Producer.datagramManager st.prioritizeDatagrams ∈ (Normal.onTransmit st c d).2
    ∧ Producer.recoveryManager ∈ (Normal.onTransmit st c d).2
    ∧ Producer.ping ∈ (Normal.onTransmit st c d).2
    ∧ MtuProbe.onTransmit ctrl c = []
    ∧ PathValidationOnly.onTransmit p c = [] := by
  have h : canTransmitOrRetransmit c = true := by
    simp [canTransmitOrRetransmit, hcr]
  obtain ⟨pd⟩ := st
  refine ⟨?_, ?_, ?_, ?_, ?_, ?_, ?_⟩ <;>
    first
      | (cases pd <;> cases d <;>
          simp [Normal.onTransmit, transmitControlData, h])
      | simp [MtuProbe.onTransmit, PathValidationOnly.onTransmit, hct]

theorem c10_gating_difference_witness :
    Producer.streamManager ∈ (Normal.onTransmit ⟨false⟩ ⟨false, true⟩ false).2
    ∧ Producer.handshakeStatus ∈ (Normal.onTransmit ⟨false⟩ ⟨false, true⟩ false).2
    ∧ Producer.datagramManager (NormalState.prioritizeDatagrams ⟨false⟩)
        ∈ (Normal.onTransmit ⟨false⟩ ⟨false, true⟩ false).2
    ∧ Producer.recoveryManager ∈ (Normal.onTransmit ⟨false⟩ ⟨false, true⟩ false).2
    ∧ Producer.ping ∈ (Normal.onTransmit ⟨false⟩ ⟨false, true⟩ false).2
    ∧ MtuProbe.onTransmit ⟨true, 1500⟩ ⟨false, true⟩ = []
    ∧ PathValidationOnly.onTransmit ⟨true, 7, false, 0⟩ ⟨false, true⟩ = [] :=
  c10_gating_difference ⟨false⟩ false ⟨true, 1500⟩ ⟨true, 7, false, 0⟩ ⟨false, true⟩
    (by decide) (by decide)

/-- Claim C3: the variant `Payload::new` returns is determined by the
transmission mode — Normal and LossRecoveryProbing yield a Normal payload
(asserted to be on the active path, the hypothesis), MtuProbing yields an
MtuProbe payload holding the given path's MTU controller, and
PathValidationOnly yields a PathValidationOnly payload holding the given
(possibly non-active) path. -/
theorem c3_payload_new_variant (pathId : Nat) (pm : PathManagerState) (mode : Mode)
    (h : mode ≠ Mode.PathValidationOnly → pathId = pm.activePathId) :
    Payload.new pathId pm mode =
      some (match mode with
            | Mode.Normal => PayloadDesc.normal false
            | Mode.LossRecoveryProbing => PayloadDesc.normal false
            | Mode.MtuProbing => PayloadDesc.mtuProbe pathId
            | Mode.PathValidationOnly => PayloadDesc.pathValidationOnly pathId) := by
  cases mode with
  | PathValidationOnly => simp [Payload.new]
  | Normal =>
    have hp := h (by simp)
    simp [Payload.new, hp]
  | MtuProbing =>
    have hp := h (by simp)
    simp [Payload.new, hp]
  | LossRecoveryProbing =>
    have hp := h (by simp)
    simp [Payload.new, hp]

theorem c3_payload_new_variant_witness :
    5 = (PathManagerState.mk 5).activePathId
    ∧ Payload.new 5 (PathManagerState.mk 5) Mode.MtuProbing =
        some (PayloadDesc.mtuProbe 5) :=
  ⟨rfl, c3_payload_new_variant 5 (PathManagerState.mk 5) Mode.MtuProbing
    (fun _ => rfl)⟩

/-- Claim C5 counterexample: the claim also asserts that under a congestion
limited constraint (`can_transmit = false`) the MtuProbe payload's
`transmission_interest` is None, but the interest delegates to the MTU
controller without consulting the constraint: with a probe requested
(size 1500) and a fully limited constraint, no frames are written yet the
interest is NewData, not None. -/
theorem c5_interest_counterexample :
    MtuProbe.onTransmit ⟨true, 1500⟩ ⟨false, false⟩ = []
    ∧ MtuProbe.transmissionInterest ⟨true, 1500⟩ ≠ Interest.none := by
  constructor
  · rfl
  · decide

/-- Claim C5 (amended): for every call to `MtuProbe::on_transmit` with a
write context whose constraint reports `can_transmit = false`, no frames are
written; the payload's `transmission_interest` does not depend on the
constraint — it is None exactly when the MTU controller has no probe
requested. -/
theorem c5_amended_mtu_probe (ctrl : MtuController) (c : Constraint)
    (h : c.canTransmit = false) :
    MtuProbe.onTransmit ctrl c = []
    ∧ (MtuProbe.transmissionInterest ctrl = Interest.none
        ↔ ctrl.probeRequested = false) := by
  constructor
  · simp [MtuProbe.onTransmit, h]
  · cases hp : ctrl.probeRequested <;>
      simp [MtuProbe.transmissionInterest, MtuController.transmissionInterest, hp]

theorem c5_amended_mtu_probe_witness :
    (Constraint.canTransmit ⟨false, false⟩ = false)
    ∧ (MtuProbe.onTransmit ⟨true, 1400⟩ ⟨false, false⟩ = []
        ∧ (MtuProbe.transmissionInterest ⟨true, 1400⟩ = Interest.none
            ↔ MtuController.probeRequested ⟨true, 1400⟩ = false)) :=
  ⟨by decide, c5_amended_mtu_probe ⟨true, 1400⟩ ⟨false, false⟩ (by decide)⟩

theorem datagram_true_mem (b : Bool) (c : Constraint) (d : Bool)
    (h : canTransmitOrRetransmit c = true) :
    Producer.datagramManager true ∈ (Normal.onTransmit ⟨b⟩ c d).2 ↔ b = true := by
  cases b <;> cases d <;>
    simp [Normal.onTransmit, transmitControlData, h]

theorem onTransmit_flag (b : Bool) (c : Constraint) (d : Bool) :
    (Normal.onTransmit ⟨b⟩ c d).1 = ⟨!b⟩ := rfl

theorem prioritizedCount_flag (c : Constraint) (d : Bool)
    (h : canTransmitOrRetransmit c = true) :
    ∀ (n : Nat) (b : Bool),
      prioritizedCount c d n ⟨b⟩ = if b then (n + 1) / 2 else n / 2 := by
  intro n
  induction n with
  | zero => intro b; cases b <;> simp [prioritizedCount, runNormal]
  | succ n ih =>
    intro b
    have hcons : prioritizedCount c d (n + 1) ⟨b⟩ =
        prioritizedCount c d n ⟨!b⟩
          + (if Producer.datagramManager true ∈ (Normal.onTransmit ⟨b⟩ c d).2
             then 1 else 0) := by
      simp [prioritizedCount, runNormal, onTransmit_flag, List.countP_cons]
    cases b
    · simp only [Bool.not_false] at hcons
      have hmem : ¬ Producer.datagramManager true ∈ (Normal.onTransmit ⟨false⟩ c d).2 := by
        rw [datagram_true_mem false c d h]
        simp
      rw [hcons, ih true, if_neg hmem]
      simp
    · simp only [Bool.not_true] at hcons
      have hmem : Producer.datagramManager true ∈ (Normal.onTransmit ⟨true⟩ c d).2 := by
        rw [datagram_true_mem true c d h]
      rw [hcons, ih false, if_pos hmem]
      simp
      omega

theorem iterNormal_flag_not (c : Constraint) (d : Bool) :
    ∀ (n : Nat) (b : Bool),
      (iterNormal c d n ⟨!b⟩).prioritizeDatagrams
        = !(iterNormal c d n ⟨b⟩).prioritizeDatagrams := by
  intro n
  induction n with
  | zero => intro b; simp [iterNormal]
  | succ n ih =>
    intro b
    have h1 : iterNormal c d (n + 1) ⟨!b⟩ = iterNormal c d n ⟨!(!b)⟩ := by
      simp [iterNormal, onTransmit_flag]
    have h2 : iterNormal c d (n + 1) ⟨b⟩ = iterNormal c d n ⟨!b⟩ := by
      simp [iterNormal, onTransmit_flag]
    rw [h1, h2, Bool.not_not, ih b, Bool.not_not]

/-- Claim C2 counterexample: on a freshly constructed Normal payload, which
starts with `prioritize_datagrams = false`, a run of N = 1 transmissions
(with a constraint that allows sending) prioritizes datagrams in 0 packets,
not in ⌈1/2⌉ = 1 as the claim states. -/
theorem c2_fairness_counterexample :
    ¬ (prioritizedCount ⟨true, false⟩ false 1 ⟨false⟩ = (1 + 1) / 2) := by
  decide

/-- Claim C2 (amended): on a single freshly-constructed Normal payload
(`prioritize_datagrams` starts false), over every sequence of N consecutive
`on_transmit` calls under a constraint that allows sending,
`prioritize_datagrams` alternates between true and false on each packet, and
datagrams are prioritized in exactly ⌊N/2⌋ of the N packets (the
even-numbered ones). -/
theorem c2_amended_fairness (c : Constraint) (d : Bool) (n k : Nat)
    (h : canTransmitOrRetransmit c = true) :
    prioritizedCount c d n ⟨false⟩ = n / 2
    ∧ (iterNormal c d (k + 1) ⟨false⟩).prioritizeDatagrams
        = !(iterNormal c d k ⟨false⟩).prioritizeDatagrams := by
  constructor
  · rw [prioritizedCount_flag c d h n false]
    simp
  · have h1 : iterNormal c d (k + 1) ⟨false⟩ = iterNormal c d k ⟨true⟩ := by
      simp [iterNormal, onTransmit_flag]
    rw [h1, show (⟨true⟩ : NormalState) = ⟨!false⟩ from rfl,
      iterNormal_flag_not c d k false]

theorem c2_amended_fairness_witness :
    prioritizedCount ⟨true, false⟩ true 5 ⟨false⟩ = 5 / 2
    ∧ (iterNormal ⟨true, false⟩ true (3 + 1) ⟨false⟩).prioritizeDatagrams
        = !(iterNormal ⟨true, false⟩ true 3 ⟨false⟩).prioritizeDatagrams :=
  c2_amended_fairness ⟨true, false⟩ true 5 3 (by decide)

/-- Claim C7: for every local-initiated stream controller state,
`poll_open_stream` returns Ready with the next stream id of the quadrant
(counting the stream as opened) when `opened_streams <
min(max_local_limit, peer_stream_limit)`; otherwise it registers the supplied
waker, records the blocked-at value `peer_stream_limit`, and returns
Pending. -/
theorem c7_poll_open_stream (ctrl : LocalController) (waker : Nat) :
    (ctrl.openedStreams < min ctrl.maxLocalLimit ctrl.peerStreamLimit →
      ctrl.pollOpenStream waker =
        ({ ctrl with openedStreams := ctrl.openedStreams + 1 },
         Poll.ready ((ctrl.openedStreams <<< 2) ||| ctrl.quadrantTag)))
    ∧ (¬ ctrl.openedStreams < min ctrl.maxLocalLimit ctrl.peerStreamLimit →
      (ctrl.pollOpenStream waker).2 = Poll.pending
      ∧ (ctrl.pollOpenStream waker).1.wakers = ctrl.wakers ++ [waker]
      ∧ (ctrl.pollOpenStream waker).1.streamsBlockedRequested
          = some ctrl.peerStreamLimit
      ∧ (ctrl.pollOpenStream waker).1.openedStreams = ctrl.openedStreams) := by
  constructor
  · intro h
    simp [LocalController.pollOpenStream, LocalController.nextStreamId, h]
  · intro h
    simp [LocalController.pollOpenStream, h]

theorem c7_poll_open_stream_witness :
    (LocalController.mk 100 3 0 0 [] Option.none 0).pollOpenStream 42 =
      (LocalController.mk 100 3 1 0 [] Option.none 0, Poll.ready 0)
    ∧ ((LocalController.mk 100 3 3 0 [] Option.none 0).pollOpenStream 7).2
        = Poll.pending
    ∧ ((LocalController.mk 100 3 3 0 [] Option.none 0).pollOpenStream 7).1.wakers
        = [7]
    ∧ ((LocalController.mk 100 3 3 0 [] Option.none
          0).pollOpenStream 7).1.streamsBlockedRequested = some 3
    ∧ ((LocalController.mk 100 3 3 0 [] Option.none
          0).pollOpenStream 7).1.openedStreams = 3 :=
  ⟨(c7_poll_open_stream (LocalController.mk 100 3 0 0 [] Option.none 0) 42).1
      (by decide),
   ((c7_poll_open_stream (LocalController.mk 100 3 3 0 [] Option.none 0) 7).2
      (by decide)).1,
   ((c7_poll_open_stream (LocalController.mk 100 3 3 0 [] Option.none 0) 7).2
      (by decide)).2.1,
   ((c7_poll_open_stream (LocalController.mk 100 3 3 0 [] Option.none 0) 7).2
      (by decide)).2.2.1,
   ((c7_poll_open_stream (LocalController.mk 100 3 3 0 [] Option.none 0) 7).2
      (by decide)).2.2.2⟩

theorem local_step_inv (ctrl : LocalController) (e : LocalEvent)
    (hv : ctrl.validEvent e = true)
    (h : ctrl.closedStreams ≤ ctrl.openedStreams) :
    (ctrl.step e).closedStreams ≤ (ctrl.step e).openedStreams := by
  cases e with
  | pollOpen w =>
    simp only [LocalController.step, LocalController.pollOpenStream]
    split <;> simp <;> omega
  | closeStream =>
    simp only [LocalController.validEvent, decide_eq_true_eq] at hv
    simp only [LocalController.step, LocalController.onCloseStream]
    omega
  | maxStreams v =>
    simp only [LocalController.step, LocalController.onMaxStreamsFrame]
    split <;> simpa

theorem local_run_inv :
    ∀ (es : List LocalEvent) (ctrl : LocalController),
      ctrl.closedStreams ≤ ctrl.openedStreams →
      ctrl.validTrace es = true →
      (ctrl.run es).closedStreams ≤ (ctrl.run es).openedStreams := by
  intro es
  induction es with
  | nil => intro ctrl h _; exact h
  | cons e tl ih =>
    intro ctrl h hv
    simp only [LocalController.validTrace, Bool.and_eq_true] at hv
    exact ih (ctrl.step e) (local_step_inv ctrl e hv.1 h) hv.2

theorem local_validTrace_take :
    ∀ (es : List LocalEvent) (ctrl : LocalController) (n : Nat),
      ctrl.validTrace es = true → ctrl.validTrace (es.take n) = true := by
  intro es
  induction es with
  | nil => intro ctrl n _; simp [LocalController.validTrace]
  | cons e tl ih =>
    intro ctrl n hv
    simp only [LocalController.validTrace, Bool.and_eq_true] at hv
    cases n with
    | zero => simp [LocalController.validTrace]
    | succ n =>
      simp only [List.take_succ_cons, LocalController.validTrace, Bool.and_eq_true]
      exact ⟨hv.1, ih (ctrl.step e) n hv.2⟩

theorem remote_step_inv (ctrl : RemoteController) (e : RemoteEvent)
    (hv : ctrl.validEvent e = true)
    (h : ctrl.closedStreams ≤ ctrl.openedStreams) :
    (ctrl.step e).closedStreams ≤ (ctrl.step e).openedStreams := by
  cases e with
  | openStream =>
    simp only [RemoteController.step]
    omega
  | closeStream =>
    simp only [RemoteController.validEvent, decide_eq_true_eq] at hv
    simp only [RemoteController.step]
    omega

theorem remote_run_inv :
    ∀ (es : List RemoteEvent) (ctrl : RemoteController),
      ctrl.closedStreams ≤ ctrl.openedStreams →
      ctrl.validTrace es = true →
      (ctrl.run es).closedStreams ≤ (ctrl.run es).openedStreams := by
  intro es
  induction es with
  | nil => intro ctrl h _; exact h
  | cons e tl ih =>
    intro ctrl h hv
    simp only [RemoteController.validTrace, Bool.and_eq_true] at hv
    exact ih (ctrl.step e) (remote_step_inv ctrl e hv.1 h) hv.2

theorem remote_validTrace_take :
    ∀ (es : List RemoteEvent) (ctrl : RemoteController) (n : Nat),
      ctrl.validTrace es = true → ctrl.validTrace (es.take n) = true := by
  intro es
  induction es with
  | nil => intro ctrl n _; simp [RemoteController.validTrace]
  | cons e tl ih =>
    intro ctrl n hv
    simp only [RemoteController.validTrace, Bool.and_eq_true] at hv
    cases n with
    | zero => simp [RemoteController.validTrace]
    | succ n =>
      simp only [List.take_succ_cons, RemoteController.validTrace, Bool.and_eq_true]
      exact ⟨hv.1, ih (ctrl.step e) n hv.2⟩

/-- Claim C8: in every controller (both local-initiated and
remote-initiated), started in a state satisfying the invariant (e.g. the
fresh state with both counters zero), after every well-formed sequence of
open/close/MAX_STREAMS events the invariant `closed_streams ≤
opened_streams` holds at every step, i.e. after every prefix of the event
sequence. -/
theorem c8_closed_le_opened (lc : LocalController) (rc : RemoteController)
    (les : List LocalEvent) (res : List RemoteEvent) (n : Nat)
    (hl : lc.closedStreams ≤ lc.openedStreams)
    (hr : rc.closedStreams ≤ rc.openedStreams)
    (hvl : lc.validTrace les = true) (hvr : rc.validTrace res = true) :
    (lc.run (les.take n)).closedStreams ≤ (lc.run (les.take n)).openedStreams
    ∧ (rc.run (res.take n)).closedStreams ≤ (rc.run (res.take n)).openedStreams := by
  constructor
  · exact local_run_inv (les.take n) lc hl (local_validTrace_take les lc n hvl)
  · exact remote_run_inv (res.take n) rc hr (remote_validTrace_take res rc n hvr)

theorem c8_closed_le_opened_witness :
    ((LocalController.mk 2 2 0 0 [] Option.none 0).run
          ([LocalEvent.pollOpen 1, LocalEvent.closeStream,
            LocalEvent.maxStreams 4].take 2)).closedStreams
      ≤ ((LocalController.mk 2 2 0 0 [] Option.none 0).run
          ([LocalEvent.pollOpen 1, LocalEvent.closeStream,
            LocalEvent.maxStreams 4].take 2)).openedStreams
    ∧ ((RemoteController.mk 3 0 0 3).run
          ([RemoteEvent.openStream, RemoteEvent.closeStream].take 2)).closedStreams
      ≤ ((RemoteController.mk 3 0 0 3).run
          ([RemoteEvent.openStream, RemoteEvent.closeStream].take 2)).openedStreams :=
  c8_closed_le_opened (LocalController.mk 2 2 0 0 [] Option.none 0)
    (RemoteController.mk 3 0 0 3)
    [LocalEvent.pollOpen 1, LocalEvent.closeStream, LocalEvent.maxStreams 4]
    [RemoteEvent.openStream, RemoteEvent.closeStream] 2
    (by decide) (by decide) (by decide) (by decide)

end S2NQuic
